import Mathlib

set_option maxRecDepth 100000

/-!
Verification of the claim-rewards workflow of `ore-hq-client` (`src/claim.rs`).

The numeric core of the program converts human decimal token amounts to
integer smallest units ("grains") with the Rust expression
`(x * 10f64.powf(TOKEN_DECIMALS as f64)) as u64`, i.e. IEEE-754 binary64
arithmetic followed by Rust's saturating float-to-integer cast.  We embed
binary64 arithmetic exactly: a finite double is a dyadic rational
`m * 2 ^ e`, and rounding (to nearest, ties to even, with subnormal range
and overflow to infinity) is computed over `ℕ`/`ℤ` only, so that every
concrete run of the model can be checked by `decide`.  `ℚ` is used in
statements to relate the model to real-number values.

`TOKEN_DECIMALS` comes from the external `ore_api` crate, so every
definition is parametric in the decimal count `k`; `10f64.powf(k)` is the
exact double `10 ^ k` for every `k ≤ 22`, which covers any token decimal
count, so the multiplier is modelled as the exact integer `10 ^ k`.
-/

/-- Fuel-driven floor-log₂ helper: `log2Fuel f n` halves `n` until it reaches
`0` or `1`, counting the steps; `f` bounds the recursion depth.  Structural
recursion on the fuel keeps it kernel-reducible. -/
def log2Fuel : ℕ → ℕ → ℕ
  | 0, _ => 0
  | f + 1, n => if n ≤ 1 then 0 else log2Fuel f (n / 2) + 1

/-- `⌊log₂ n⌋` for `n ≥ 1` (and `0` at `n = 0`): `n` itself is enough fuel. -/
def natLog2 (n : ℕ) : ℕ := log2Fuel n n

/-- `scaledLt n d s` decides `(n : ℚ) < d * 2 ^ s` for `n d : ℕ`, `s : ℤ`,
using only natural-number arithmetic. -/
def scaledLt (n d : ℕ) (s : ℤ) : Bool :=
  n * 2 ^ (-s).toNat < d * 2 ^ s.toNat

/-- Round the non-negative rational `a / b` (`b ≥ 1`) to an integer:
round to nearest, ties to even. -/
def roundHalfEvenNat (a b : ℕ) : ℕ :=
  let q := a / b
  let r := a % b
  if 2 * r < b then q
  else if b < 2 * r then q + 1
  else if q % 2 = 0 then q else q + 1

/-- Binary64 rounding exponent for the positive rational `n / d`: the unique
`e` with `2 ^ 52 ≤ (n / d) * 2 ^ (-e) < 2 ^ 53`, clamped below at the
subnormal scale `-1074`. -/
def f64Exp (n d : ℕ) : ℤ :=
  let e0 : ℤ := (natLog2 n : ℤ) - (natLog2 d : ℤ) - 52
  max (if scaledLt n d (e0 + 52) then e0 - 1 else e0) (-1074)

/-- Round the positive rational `n / d` (`n, d ≥ 1`) to the binary64 grid
(round to nearest, ties to even, subnormals included), returning the result
as mantissa and exponent, or `none` on overflow to infinity (rounded
magnitude `≥ 2 ^ 1024`). -/
def f64RoundPos (n d : ℕ) : Option (ℕ × ℤ) :=
  let e := f64Exp n d
  let m := roundHalfEvenNat (n * 2 ^ (-e).toNat) (d * 2 ^ e.toNat)
  if scaledLt m 1 (1024 - e) then some (m, e) else none

/-- An IEEE-754 binary64 value, as the Rust code observes it: a finite value
is carried as an exact dyadic rational `m * 2 ^ e` (the representation is not
required to be canonical; every representable double has one). -/
inductive F64 where
  | finite (m : ℤ) (e : ℤ)
  | inf
  | negInf
  | nan
deriving DecidableEq

/-- The rational value of a finite `F64` (infinities and NaN are mapped to
`0`; the workflow never consults `val` on them). -/
def F64.val : F64 → ℚ
  | .finite m e => (m : ℚ) * 2 ^ e
  | _ => 0

/-- Rust `str::parse::<f64>()` on a decimal numeral whose exact value is
`n / d`: the IEEE-correctly-rounded nearest double. -/
def parseDecF64 (n d : ℕ) : F64 :=
  if n = 0 then .finite 0 0
  else
    match f64RoundPos n d with
    | some (m, e) => .finite (m : ℤ) e
    | none => .inf

/-- The binary64 product `x * 10f64.powf(k as f64)` (claim.rs:43 and
claim.rs:89): the exact product with the positive constant `10 ^ k`,
rounded once to binary64.  `10f64.powf(k as f64)` is exactly `10 ^ k` for
`k ≤ 22`. -/
def f64MulPow10 (k : ℕ) : F64 → F64
  | .finite m e =>
    if m = 0 then .finite 0 0
    else
      match f64RoundPos (m.natAbs * 10 ^ k * 2 ^ e.toNat) (2 ^ (-e).toNat) with
      | some (m2, e2) => .finite (if m < 0 then -(m2 : ℤ) else (m2 : ℤ)) e2
      | none => if m < 0 then .negInf else .inf
  | .inf => .inf
  | .negInf => .negInf
  | .nan => .nan

/-- Rust's `as u64` cast of a double: truncate toward zero, saturating at
`0` and `u64::MAX = 2 ^ 64 - 1`; NaN casts to `0`. -/
def f64ToU64 : F64 → ℕ
  | .nan => 0
  | .negInf => 0
  | .inf => 2 ^ 64 - 1
  | .finite m e =>
    if m ≤ 0 then 0
    else min (m.natAbs * 2 ^ e.toNat / 2 ^ (-e).toNat) (2 ^ 64 - 1)

/-- claim.rs:43 — `(parsed_balance * 10f64.powf(TOKEN_DECIMALS as f64)) as u64`. -/
def grainsOfBalance (k : ℕ) (b : F64) : ℕ := f64ToU64 (f64MulPow10 k b)

/-- claim.rs:89 — `(claim_amount * 10f64.powf(TOKEN_DECIMALS as f64)) as u64`. -/
def grainsOfAmount (k : ℕ) (a : F64) : ℕ := f64ToU64 (f64MulPow10 k a)

/-- The decimal re-expression used for display,
`spl_token::amount_to_ui_amount(grains, decimals)` (claim.rs:102/106/117/135):
`grains / 10 ^ decimals`, modelled exactly over `ℚ` (the helper performs the
division in binary64; it is used for display only, never for comparisons). -/
def amountToUiAmount (k grains : ℕ) : ℚ := (grains : ℚ) / 10 ^ k

/-- Rust `char::is_whitespace`: membership in the Unicode `White_Space` set
(all 25 code points), by code point. -/
def rustWhitespaceCodes : List ℕ :=
  [0x9, 0xA, 0xB, 0xC, 0xD, 0x20, 0x85, 0xA0, 0x1680, 0x2000, 0x2001, 0x2002,
   0x2003, 0x2004, 0x2005, 0x2006, 0x2007, 0x2008, 0x2009, 0x200A, 0x2028,
   0x2029, 0x202F, 0x205F, 0x3000]

/-- Rust `char::is_whitespace` for one character. -/
def rustIsWhitespace (c : Char) : Bool := rustWhitespaceCodes.contains c.toNat

/-- Rust `str::trim`: remove leading and trailing `White_Space` characters. -/
def rustTrim (s : List Char) : List Char :=
  ((s.dropWhile rustIsWhitespace).reverse.dropWhile rustIsWhitespace).reverse

/-- Rust `char::to_lowercase` restricted to ASCII (code points 65–90 map down
by 32, everything else unchanged).  The source only ever compares the result
against the ASCII strings `"y"`/`"yes"`, and the spec's confirmation inputs
are ASCII, so the non-ASCII part of Unicode lowercasing is irrelevant here. -/
def rustToLowerChar (c : Char) : Char :=
  if 65 ≤ c.toNat ∧ c.toNat ≤ 90 then Char.ofNat (c.toNat + 32) else c

/-- Rust `str::to_lowercase` (ASCII fragment, see `rustToLowerChar`). -/
def rustToLower (s : List Char) : List Char := s.map rustToLowerChar

/-- claim.rs:126-127 — `let confirm = confirm.trim().to_lowercase();`
followed by `confirm != "y" && !confirm.is_empty() && confirm != "yes"`:
`true` means the user's answer cancels the claim. -/
def confirmCancelled (line : String) : Bool :=
  let confirm := rustToLower (rustTrim line.data)
  (confirm != "y".data) && !confirm.isEmpty && (confirm != "yes".data)

/-- ASCII digit test, as in Rust's unsigned-integer parser. -/
def isAsciiDigit (c : Char) : Bool := 48 ≤ c.toNat && c.toNat ≤ 57

/-- Value of a string of ASCII digits, most significant first. -/
def digitsToNat (cs : List Char) : ℕ :=
  cs.foldl (fun acc c => 10 * acc + (c.toNat - 48)) 0

/-- Rust `str::parse::<u64>()` (`u64::from_str`): an optional leading `+`
(code 43), then one or more ASCII digits and nothing else; rejects the empty
string, any other character (including `-`, whitespace) and values that
overflow `u64`. -/
def parseU64 (s : String) : Option ℕ :=
  let cs :=
    match s.data with
    | c :: rest => if c.toNat = 43 then rest else c :: rest
    | [] => []
  if cs.isEmpty then none
  else if cs.all isAsciiDigit then
    if digitsToNat cs < 2 ^ 64 then some (digitsToNat cs) else none
  else none

/-- The terminal outcomes of one run of `claim` (claim.rs:20-173), one per
terminal message the function can print. -/
inductive Outcome where
  | noBalance
  | invalidInput
  | zeroAmount
  | insufficientBalance (requested available : ℕ)
  | cancelled
  | success
  | cooldown (elapsed : ℕ)
  | unrecognized (raw : String)
  | transportFailure
deriving DecidableEq

/-- claim.rs:148-163 — classification of the claim endpoint's response body:
exact match `"SUCCESS"` first, else `parse::<u64>()` for the cooldown branch,
else the unrecognized-response branch carrying the raw text. -/
def classifyResponse (body : String) : Outcome :=
  if body = "SUCCESS" then .success
  else
    match parseU64 body with
    | some time => .cooldown time
    | none => .unrecognized body

/-- `u64` subtraction `a - b` with the wrap-around semantics of a Rust
release build (a debug build would panic on underflow); both agree on
`b ≤ a`.  `a` is assumed `< 2 ^ 64` (it is the literal `1800` at the use
site). -/
def u64SubWrap (a b : ℕ) : ℕ := (a + 2 ^ 64 - b % 2 ^ 64) % 2 ^ 64

/-- claim.rs:154-156 — `let time_left = 1800 - time; let secs = time_left %
60; let mins = (time_left / 60) % 60;` returned as `(mins, secs)`. -/
def cooldownDisplay (time : ℕ) : ℕ × ℕ :=
  let time_left := u64SubWrap 1800 time
  ((time_left / 60) % 60, time_left % 60)

/-- claim.rs:92-110 — the two amount checks, in source order: a zero claim
amount, then a claim amount exceeding the balance (the insufficient-balance
message displays both amounts via `amount_to_ui_amount`). -/
def validateAmount (claim_amount_grains balance_grains : ℕ) : Option Outcome :=
  if claim_amount_grains = 0 then some .zeroAmount
  else if claim_amount_grains > balance_grains then
    some (.insufficientBalance claim_amount_grains balance_grains)
  else none

/-- The environment of one run of `claim`: every external datum the control
flow consults, at the granularity the code observes it.
* `balanceFetch`: `none` = transport error on `GET /miner/rewards`
  (claim.rs:51); `some none` = response body does not `parse::<f64>()`
  (claim.rs:44; a failing `text()` is `unwrap_or("0")` and parses to `0.0`,
  i.e. `some (some (.finite 0 0))`); `some (some b)` = body parses to the
  double `b` (claim.rs:42).
* `presetAmount`: `args.amount` (claim.rs:69).
* `amountLine`: `input.trim().parse::<f64>()` of the interactive amount line
  (claim.rs:78); `none` = parse failure.
* `confirmLine`: the raw confirmation line (claim.rs:124).
* `claimResp`: `none` = transport error on `POST /claim` (claim.rs:165);
  `some body` = response text (claim.rs:150). -/
structure ClaimInput where
  balanceFetch : Option (Option F64)
  presetAmount : Option F64
  amountLine : Option F64
  confirmLine : String
  claimResp : Option String
deriving DecidableEq

/-- Observable result of one run of `claim`: the terminal outcome, whether
control reached the amount-resolution step (claim.rs:69), how many times the
claim endpoint was called, and the `tokio::time::sleep` delays performed (in
seconds). -/
structure ClaimRun where
  outcome : Outcome
  amountStageReached : Bool
  claimRequests : ℕ
  delaysSecs : List ℕ
deriving DecidableEq

/-- claim.rs:69-86 — the claim amount: the preset `args.amount` if present,
else the parsed interactive line. -/
def resolvedAmount (inp : ClaimInput) : Option F64 :=
  match inp.presetAmount with
  | some a => some a
  | none => inp.amountLine

/-- The `claim` workflow, claim.rs:20-173: balance fetch and conversion
(claim.rs:39-56), zero-balance early return (claim.rs:59-63), amount
resolution (claim.rs:69-86) and conversion (claim.rs:89), the amount checks
(claim.rs:92-110), the confirmation gate (claim.rs:113-131), submission
(claim.rs:137-146) and response handling (claim.rs:148-170). -/
def claim (k : ℕ) (inp : ClaimInput) : ClaimRun :=
  match inp.balanceFetch with
  | none => ⟨.noBalance, false, 0, []⟩
  | some none => ⟨.noBalance, false, 0, []⟩
  | some (some parsedBalance) =>
    let balance_grains := grainsOfBalance k parsedBalance
    if balance_grains = 0 then ⟨.noBalance, false, 0, []⟩
    else
      match resolvedAmount inp with
      | none => ⟨.invalidInput, true, 0, []⟩
      | some claim_amount =>
        let claim_amount_grains := grainsOfAmount k claim_amount
        match validateAmount claim_amount_grains balance_grains with
        | some err => ⟨err, true, 0, []⟩
        | none =>
          if confirmCancelled inp.confirmLine then ⟨.cancelled, true, 0, []⟩
          else
            match inp.claimResp with
            | some body => ⟨classifyResponse body, true, 1, []⟩
            | none => ⟨.transportFailure, true, 1, [5]⟩

example : parseDecF64 1999999999 1000000000 = .finite 9007199250237392 (-52) := by decide
example : f64MulPow10 9 (.finite 9007199250237392 (-52)) = .finite 8388607995805696 (-22) := by decide
example : grainsOfAmount 9 (parseDecF64 1999999999 1000000000) = 1999999999 := by decide
example : grainsOfAmount 9 (.finite 5 0) = 5000000000 := by decide
example : f64MulPow10 9 (.finite 10000000 0) = .finite 5000000000000000 1 := by decide
example : grainsOfAmount 9 F64.inf = 2 ^ 64 - 1 := by decide
example : grainsOfAmount 9 (.finite (-1) 0) = 0 := by decide
example : grainsOfAmount 9 F64.nan = 0 := by decide
example : confirmCancelled "" = false := by decide
example : confirmCancelled "  " = false := by decide
example : confirmCancelled "Yes" = false := by decide
example : confirmCancelled "YES" = false := by decide
example : confirmCancelled "maybe" = true := by decide
example : parseU64 "600" = some 600 := by decide
example : parseU64 "SUCCESS" = none := by decide
example : parseU64 "+7" = some 7 := by decide
example : parseU64 "-0" = none := by decide
example : parseU64 "" = none := by decide
example : parseU64 "18446744073709551616" = none := by decide
example : classifyResponse "SUCCESS" = .success := by decide
example : classifyResponse "600" = .cooldown 600 := by decide
example : classifyResponse "0x10" = .unrecognized "0x10" := by decide
example : cooldownDisplay 600 = (20, 0) := by decide
example : cooldownDisplay 1800 = (0, 0) := by decide
example :
    claim 9 ⟨some (some (.finite 5 0)), some (.finite 3 0), none, "y", some "SUCCESS"⟩
      = ⟨.success, true, 1, []⟩ := by decide
example :
    claim 9 ⟨some (some (.finite 5 0)), none, some (.finite 7 0), "y", some "SUCCESS"⟩
      = ⟨.insufficientBalance 7000000000 5000000000, true, 0, []⟩ := by decide
example :
    claim 9 ⟨some (some (.finite 5 0)), some (.finite 3 0), none, "n", some "SUCCESS"⟩
      = ⟨.cancelled, true, 0, []⟩ := by decide
example :
    claim 9 ⟨some (some (.finite 5 0)), some (.finite 3 0), none, "", none⟩
      = ⟨.transportFailure, true, 1, [5]⟩ := by decide
example : claim 9 ⟨none, some (.finite 3 0), none, "y", some "SUCCESS"⟩
      = ⟨.noBalance, false, 0, []⟩ := by decide

/-- The natural-number computation inside `f64ToU64` is the floor of the
dyadic value `a * 2 ^ e`. -/
theorem natMulPowDiv_eq_floor (a : ℕ) (e : ℤ) :
    a * 2 ^ e.toNat / 2 ^ (-e).toNat = (⌊(a : ℚ) * 2 ^ e⌋).toNat := by
  rcases le_or_lt 0 e with he | he
  · have h1 : (-e).toNat = 0 := by omega
    have h2 : (2 : ℚ) ^ e = ((2 ^ e.toNat : ℕ) : ℚ) := by
      push_cast
      rw [← zpow_natCast (2 : ℚ) e.toNat, Int.toNat_of_nonneg he]
    rw [h1, pow_zero, Nat.div_one, h2, ← Nat.cast_mul, Int.floor_natCast,
      Int.toNat_natCast]
  · have h1 : e.toNat = 0 := by omega
    have h2 : (2 : ℚ) ^ e = ((2 ^ (-e).toNat : ℕ) : ℚ)⁻¹ := by
      push_cast
      rw [← zpow_natCast (2 : ℚ) (-e).toNat, ← zpow_neg]
      congr 1
      omega
    rw [h1, pow_zero, mul_one, h2, ← div_eq_mul_inv, Int.floor_toNat,
      Rat.natFloor_natCast_div_natCast]

/-- Rust's `as u64` on a non-negative finite double below `2 ^ 64` is the
floor (= truncation toward zero) of its value. -/
theorem f64ToU64_eq_floor (m e : ℤ) (hm : 0 ≤ m)
    (hv : (m : ℚ) * 2 ^ e < 2 ^ 64) :
    f64ToU64 (.finite m e) = (⌊(m : ℚ) * 2 ^ e⌋).toNat := by
  simp only [f64ToU64]
  by_cases h0 : m ≤ 0
  · have hm0 : m = 0 := le_antisymm h0 hm
    subst hm0
    simp
  · rw [if_neg h0]
    have hcast : ((m.natAbs : ℕ) : ℚ) = (m : ℚ) := by
      rw [Int.cast_natAbs, abs_of_nonneg (by exact_mod_cast hm)]
    have hfl := natMulPowDiv_eq_floor m.natAbs e
    rw [hcast] at hfl
    rw [hfl]
    have hlt : ⌊(m : ℚ) * 2 ^ e⌋ < 2 ^ 64 := by
      rw [Int.floor_lt]
      push_cast
      exact hv
    have : (⌊(m : ℚ) * 2 ^ e⌋).toNat ≤ 2 ^ 64 - 1 := by omega
    exact min_eq_left this

/-- Multiplying a non-negative finite double by `10 ^ k` yields a
non-negative mantissa. -/
theorem f64MulPow10_nonneg (k : ℕ) (m e m2 e2 : ℤ) (hm : 0 ≤ m)
    (h : f64MulPow10 k (.finite m e) = .finite m2 e2) : 0 ≤ m2 := by
  simp only [f64MulPow10] at h
  by_cases h0 : m = 0
  · rw [if_pos h0] at h
    injection h with h1 h2
    omega
  · rw [if_neg h0] at h
    have hneg : ¬ m < 0 := by omega
    rcases hr : f64RoundPos (m.natAbs * 10 ^ k * 2 ^ e.toNat) (2 ^ (-e).toNat)
      with _ | ⟨m3, e3⟩
    · rw [hr] at h
      simp only [if_neg hneg] at h
      cases h
    · rw [hr] at h
      simp only [if_neg hneg] at h
      injection h with h1 h2
      omega

/-- A failed balance fetch and an unparsable balance body both take the
early no-balance return (claim.rs:44-55). -/
theorem claim_balance_missing (k : ℕ) (inp : ClaimInput)
    (h : inp.balanceFetch = none ∨ inp.balanceFetch = some none) :
    claim k inp = ⟨.noBalance, false, 0, []⟩ := by
  rcases h with h | h <;> · unfold claim; rw [h]

/-- A balance converting to zero Grains takes the early no-balance return
(claim.rs:59-63). -/
theorem claim_balance_zero (k : ℕ) (inp : ClaimInput) (pb : F64)
    (hbf : inp.balanceFetch = some (some pb))
    (hb0 : grainsOfBalance k pb = 0) :
    claim k inp = ⟨.noBalance, false, 0, []⟩ := by
  unfold claim
  rw [hbf]
  simp [hb0]

/-- With a non-zero balance, a resolved amount and both amount checks
passed, `claim` reaches the confirmation gate and then the submission
(claim.rs:113-170). -/
theorem claim_eval_gate (k : ℕ) (inp : ClaimInput) (pb a : F64)
    (hbf : inp.balanceFetch = some (some pb))
    (hb0 : grainsOfBalance k pb ≠ 0)
    (hra : resolvedAmount inp = some a)
    (hval : validateAmount (grainsOfAmount k a) (grainsOfBalance k pb) = none) :
    claim k inp =
      if confirmCancelled inp.confirmLine then ⟨.cancelled, true, 0, []⟩
      else
        match inp.claimResp with
        | some body => ⟨classifyResponse body, true, 1, []⟩
        | none => ⟨.transportFailure, true, 1, [5]⟩ := by
  unfold claim
  rw [hbf]
  simp only [hb0, if_neg, hra, hval]
  simp [hb0]

/-- With a non-zero balance, a resolved amount converting to zero Grains
takes the zero-amount return (claim.rs:92-96). -/
theorem claim_amount_zero (k : ℕ) (inp : ClaimInput) (pb a : F64)
    (hbf : inp.balanceFetch = some (some pb))
    (hb0 : grainsOfBalance k pb ≠ 0)
    (hra : resolvedAmount inp = some a)
    (ha0 : grainsOfAmount k a = 0) :
    claim k inp = ⟨.zeroAmount, true, 0, []⟩ := by
  unfold claim
  rw [hbf]
  simp [hb0, hra, ha0, validateAmount]

/-- With a non-zero balance and a resolved amount whose Grains exceed the
balance, `claim` takes the insufficient-balance return (claim.rs:98-110). -/
theorem claim_insufficient (k : ℕ) (inp : ClaimInput) (pb a : F64)
    (hbf : inp.balanceFetch = some (some pb))
    (hb0 : grainsOfBalance k pb ≠ 0)
    (hra : resolvedAmount inp = some a)
    (hgt : grainsOfBalance k pb < grainsOfAmount k a) :
    claim k inp = ⟨.insufficientBalance (grainsOfAmount k a)
      (grainsOfBalance k pb), true, 0, []⟩ := by
  have ha0 : grainsOfAmount k a ≠ 0 := by omega
  unfold claim
  rw [hbf]
  simp [hb0, hra, ha0, validateAmount, hgt]

/-- C1: the decimal-to-Grains conversion is `value` × the exact double
`10 ^ k`, IEEE-multiplied, then truncated toward zero (floor on non-negative
values), not rounded to nearest; the identical conversion is used for the
fetched balance (claim.rs:43) and the user-entered claim amount
(claim.rs:89); and the boundary value `d = 1.999999999` at `k = 9` converts
strictly below `2 × 10 ^ 9`. -/
theorem conversion_truncates_toward_zero :
    (∀ k b, grainsOfBalance k b = grainsOfAmount k b)
    ∧ (∀ (k : ℕ) (m e m2 e2 : ℤ), 0 ≤ m →
        f64MulPow10 k (.finite m e) = .finite m2 e2 →
        (m2 : ℚ) * 2 ^ e2 < 2 ^ 64 →
        grainsOfAmount k (.finite m e) = (⌊(m2 : ℚ) * 2 ^ e2⌋).toNat)
    ∧ grainsOfAmount 9 (parseDecF64 1999999999 1000000000) < 2 * 10 ^ 9 := by
  refine ⟨fun k b => rfl, fun k m e m2 e2 hm hmul hv => ?_, by decide⟩
  have hm2 := f64MulPow10_nonneg k m e m2 e2 hm hmul
  unfold grainsOfAmount
  rw [hmul]
  exact f64ToU64_eq_floor m2 e2 hm2 hv

/-- Witness for C1 at `d = 10 ^ 7`, `k = 9`: the double product is the exact
`10 ^ 16 = 5 × 10 ^ 15 · 2`, and the cast returns its floor. -/
theorem conversion_truncates_toward_zero_witness :
    f64MulPow10 9 (.finite 10000000 0) = .finite 5000000000000000 1
    ∧ grainsOfAmount 9 (.finite 10000000 0)
        = (⌊(5000000000000000 : ℚ) * 2 ^ (1 : ℤ)⌋).toNat :=
  ⟨by decide,
    conversion_truncates_toward_zero.2.1 9 10000000 0 5000000000000000 1
      (by decide) (by decide) (by norm_num)⟩

/-- C2: for a response body parsing as `n ≤ 1800` elapsed seconds, the
printed cooldown is the remaining `1800 - n` seconds split into whole
minutes and seconds; `"600"` shows 20m 0s and `"1800"` shows 0m 0s.  (For
`n > 1800` the `u64` subtraction underflows; the source does not validate
that case.) -/
theorem cooldown_display_correct (n : ℕ) (h : n ≤ 1800) :
    60 * (cooldownDisplay n).1 + (cooldownDisplay n).2 = 1800 - n
    ∧ (cooldownDisplay n).2 < 60
    ∧ cooldownDisplay 600 = (20, 0) ∧ cooldownDisplay 1800 = (0, 0) := by
  have h64 : (2 : ℕ) ^ 64 = 18446744073709551616 := by norm_num
  refine ⟨?_, ?_, by decide, by decide⟩ <;>
  · simp only [cooldownDisplay, u64SubWrap, h64]
    omega

/-- Witness for C2 at the spec's example `n = 600`. -/
theorem cooldown_display_correct_witness :
    600 ≤ 1800
    ∧ 60 * (cooldownDisplay 600).1 + (cooldownDisplay 600).2 = 1800 - 600 :=
  ⟨by decide, (cooldown_display_correct 600 (by decide)).1⟩

/-- C3: the balance-sufficiency check is strict greater-than
(claim.rs:99): `requested = available` passes validation and the workflow
proceeds to the confirmation gate, while `requested > available` fails with
the insufficient-balance outcome carrying both Grains amounts, whose
decimal re-expressions (`amountToUiAmount`) are the displayed values. -/
theorem balance_check_is_strict :
    (∀ requested available : ℕ, requested ≠ 0 → requested = available →
        validateAmount requested available = none)
    ∧ (∀ requested available : ℕ, available < requested →
        validateAmount requested available
          = some (.insufficientBalance requested available))
    ∧ (∀ (k : ℕ) (inp : ClaimInput) (pb a : F64),
        inp.balanceFetch = some (some pb) →
        grainsOfBalance k pb ≠ 0 →
        resolvedAmount inp = some a →
        grainsOfAmount k a = grainsOfBalance k pb →
        (claim k inp).outcome = .cancelled ∨ (claim k inp).claimRequests = 1)
    ∧ (∀ k g : ℕ, amountToUiAmount k g * 10 ^ k = g) := by
  refine ⟨?_, ?_, ?_, ?_⟩
  · intro r a hr he
    subst he
    simp [validateAmount, hr]
  · intro r a hl
    have hr : ¬ r = 0 := by omega
    simp [validateAmount, hr, hl]
  · intro k inp pb a hbf hb0 hra heq
    have hval : validateAmount (grainsOfAmount k a) (grainsOfBalance k pb)
        = none := by
      rw [heq]
      simp [validateAmount, hb0]
    rw [claim_eval_gate k inp pb a hbf hb0 hra hval]
    by_cases hc : confirmCancelled inp.confirmLine
    · left
      simp [hc]
    · right
      rw [if_neg hc]
      cases inp.claimResp <;> rfl
  · intro k g
    unfold amountToUiAmount
    rw [div_mul_cancel₀]
    positivity

/-- Witness for C3: `5 = 5` Grains passes, `6 > 5` fails with both amounts
carried, and a concrete equal-amount run reaches the gate. -/
theorem balance_check_is_strict_witness :
    validateAmount 5 5 = none
    ∧ validateAmount 6 5 = some (.insufficientBalance 6 5)
    ∧ ((claim 9 ⟨some (some (.finite 5 0)), some (.finite 5 0), none, "y",
          some "SUCCESS"⟩).outcome = .cancelled
        ∨ (claim 9 ⟨some (some (.finite 5 0)), some (.finite 5 0), none, "y",
          some "SUCCESS"⟩).claimRequests = 1)
    ∧ amountToUiAmount 9 7 * 10 ^ 9 = 7 :=
  ⟨balance_check_is_strict.1 5 5 (by decide) rfl,
    balance_check_is_strict.2.1 6 5 (by decide),
    balance_check_is_strict.2.2.1 9
      ⟨some (some (.finite 5 0)), some (.finite 5 0), none, "y", some "SUCCESS"⟩
      (.finite 5 0) (.finite 5 0) rfl (by decide) rfl (by decide),
    balance_check_is_strict.2.2.2 9 7⟩

/-- C4: the two zero checks are ordered and distinct: a zero-converting
balance ends the run with the no-balance outcome before the amount stage is
reached, while a non-zero balance with a zero-converting resolved amount
ends it with the zero-amount outcome; neither path issues a claim
request. -/
theorem zero_checks_ordered :
    (∀ (k : ℕ) (inp : ClaimInput) (pb : F64),
        inp.balanceFetch = some (some pb) → grainsOfBalance k pb = 0 →
        claim k inp = ⟨.noBalance, false, 0, []⟩)
    ∧ (∀ (k : ℕ) (inp : ClaimInput) (pb a : F64),
        inp.balanceFetch = some (some pb) → grainsOfBalance k pb ≠ 0 →
        resolvedAmount inp = some a → grainsOfAmount k a = 0 →
        claim k inp = ⟨.zeroAmount, true, 0, []⟩) :=
  ⟨claim_balance_zero, claim_amount_zero⟩

/-- Witness for C4: a sub-smallest-unit balance (`2 ^ -60` display units at
`k = 9`) stops before the amount stage; a 5-unit balance with a
sub-smallest-unit amount stops with the zero-amount outcome. -/
theorem zero_checks_ordered_witness :
    claim 9 ⟨some (some (.finite 1 (-60))), some (.finite 3 0), none, "y",
        some "SUCCESS"⟩ = ⟨.noBalance, false, 0, []⟩
    ∧ claim 9 ⟨some (some (.finite 5 0)), some (.finite 1 (-60)), none, "y",
        some "SUCCESS"⟩ = ⟨.zeroAmount, true, 0, []⟩ :=
  ⟨zero_checks_ordered.1 9
      ⟨some (some (.finite 1 (-60))), some (.finite 3 0), none, "y",
        some "SUCCESS"⟩ (.finite 1 (-60)) rfl (by decide),
    zero_checks_ordered.2 9
      ⟨some (some (.finite 5 0)), some (.finite 1 (-60)), none, "y",
        some "SUCCESS"⟩ (.finite 5 0) (.finite 1 (-60)) rfl (by decide) rfl
      (by decide)⟩

/-- After trim+lowercase, the claim proceeds exactly for the empty answer,
`"y"` and `"yes"` (claim.rs:127). -/
theorem confirmCancelled_false_iff (line : String) :
    confirmCancelled line = false ↔
      (rustToLower (rustTrim line.data) = []
      ∨ rustToLower (rustTrim line.data) = "y".data
      ∨ rustToLower (rustTrim line.data) = "yes".data) := by
  unfold confirmCancelled
  generalize rustToLower (rustTrim line.data) = c
  by_cases h1 : c = "y".data
  · subst h1; decide
  by_cases h2 : c = "yes".data
  · subst h2; decide
  by_cases h3 : c = []
  · subst h3; decide
  · have hy : (c != "y".data) = true := by simp [h1]
    have hys : (c != "yes".data) = true := by simp [h2]
    have he : c.isEmpty = false := by
      cases c
      · exact absurd rfl h3
      · rfl
    simp [hy, hys, he, h1, h2, h3]

/-- If the confirmation answer cancels, no claim request is ever issued. -/
theorem cancelled_no_request (k : ℕ) (inp : ClaimInput)
    (h : confirmCancelled inp.confirmLine = true) :
    (claim k inp).claimRequests = 0 := by
  simp only [claim]
  repeat' split
  all_goals simp_all

/-- C5: the affirmative set of the confirmation gate is exactly the empty
answer, `"y"` and `"yes"` after trimming and lowercasing (so also `"Y"`,
`"YES"`, `"Yes"`); every other answer cancels, and a cancelled run issues no
claim request. -/
theorem confirmation_affirmative_set :
    (∀ line : String, confirmCancelled line = false ↔
        (rustToLower (rustTrim line.data) = []
        ∨ rustToLower (rustTrim line.data) = "y".data
        ∨ rustToLower (rustTrim line.data) = "yes".data))
    ∧ (∀ (k : ℕ) (inp : ClaimInput), confirmCancelled inp.confirmLine = true →
        (claim k inp).claimRequests = 0)
    ∧ confirmCancelled "" = false ∧ confirmCancelled "y" = false
    ∧ confirmCancelled "Y" = false ∧ confirmCancelled "yes" = false
    ∧ confirmCancelled "YES" = false ∧ confirmCancelled "Yes" = false
    ∧ confirmCancelled "n" = true ∧ confirmCancelled "no" = true
    ∧ confirmCancelled "maybe" = true :=
  ⟨confirmCancelled_false_iff, cancelled_no_request, by decide, by decide,
    by decide, by decide, by decide, by decide, by decide, by decide,
    by decide⟩

/-- Witness for C5: a cancelling answer (`"n"`) on a run that reaches the
gate issues no claim request. -/
theorem confirmation_affirmative_set_witness :
    confirmCancelled "n" = true
    ∧ (claim 9 ⟨some (some (.finite 5 0)), some (.finite 3 0), none, "n",
        some "SUCCESS"⟩).claimRequests = 0 :=
  ⟨by decide,
    confirmation_affirmative_set.2.1 9
      ⟨some (some (.finite 5 0)), some (.finite 3 0), none, "n",
        some "SUCCESS"⟩ (by decide)⟩

/-- C6: response classification is an ordered trichotomy — exact `"SUCCESS"`
first, else unsigned-integer parse to the cooldown outcome, else the
unrecognized outcome carrying the raw text — and the classes are mutually
exclusive (in particular `"SUCCESS"` itself never parses as an integer). -/
theorem response_classification_trichotomy :
    (∀ body : String,
      (body = "SUCCESS" ∧ classifyResponse body = .success)
      ∨ (body ≠ "SUCCESS"
          ∧ ∃ n, parseU64 body = some n ∧ classifyResponse body = .cooldown n)
      ∨ (body ≠ "SUCCESS" ∧ parseU64 body = none
          ∧ classifyResponse body = .unrecognized body))
    ∧ parseU64 "SUCCESS" = none := by
  refine ⟨fun body => ?_, by decide⟩
  by_cases hb : body = "SUCCESS"
  · exact Or.inl ⟨hb, by simp [classifyResponse, hb]⟩
  · rcases hp : parseU64 body with _ | n
    · exact Or.inr (Or.inr ⟨hb, rfl, by simp [classifyResponse, hb, hp]⟩)
    · exact Or.inr (Or.inl ⟨hb, n, rfl, by simp [classifyResponse, hb, hp]⟩)

/-- A balance of `0.0` display units converts to zero Grains for every
decimal count. -/
theorem grainsOfBalance_zero_val (k : ℕ) :
    grainsOfBalance k (.finite 0 0) = 0 := by
  simp [grainsOfBalance, f64MulPow10, f64ToU64]

/-- C7: a transport failure of the balance fetch, or a reply that does not
parse as a number, ends the run exactly like a zero balance: same
no-balance terminal record, no amount stage, no claim request. -/
theorem balance_failure_like_zero (k : ℕ) (inp : ClaimInput)
    (h : inp.balanceFetch = none ∨ inp.balanceFetch = some none) :
    claim k inp = ⟨.noBalance, false, 0, []⟩
    ∧ claim k inp
        = claim k { inp with balanceFetch := some (some (.finite 0 0)) } := by
  have h1 := claim_balance_missing k inp h
  have h2 := claim_balance_zero k
    { inp with balanceFetch := some (some (.finite 0 0)) } (.finite 0 0) rfl
    (grainsOfBalance_zero_val k)
  exact ⟨h1, by rw [h1, h2]⟩

/-- Witness for C7: a failed balance fetch with a pending valid amount. -/
theorem balance_failure_like_zero_witness :
    claim 9 ⟨none, some (.finite 3 0), none, "y", some "SUCCESS"⟩
      = ⟨.noBalance, false, 0, []⟩ :=
  (balance_failure_like_zero 9
    ⟨none, some (.finite 3 0), none, "y", some "SUCCESS"⟩ (Or.inl rfl)).1

/-- The classifier never produces the transport-failure outcome: that
outcome belongs to the `Err` arm of the submission (claim.rs:165-169). -/
theorem classifyResponse_ne_transportFailure (body : String) :
    classifyResponse body ≠ .transportFailure := by
  unfold classifyResponse
  split
  · simp
  · split <;> simp

/-- Every run of `claim` ends in one of its seven terminal shapes. -/
theorem claim_run_cases (k : ℕ) (inp : ClaimInput) :
    claim k inp = ⟨.noBalance, false, 0, []⟩
    ∨ claim k inp = ⟨.invalidInput, true, 0, []⟩
    ∨ claim k inp = ⟨.zeroAmount, true, 0, []⟩
    ∨ (∃ req avail,
        claim k inp = ⟨.insufficientBalance req avail, true, 0, []⟩)
    ∨ claim k inp = ⟨.cancelled, true, 0, []⟩
    ∨ (∃ body, inp.claimResp = some body
        ∧ claim k inp = ⟨classifyResponse body, true, 1, []⟩)
    ∨ (inp.claimResp = none
        ∧ claim k inp = ⟨.transportFailure, true, 1, [5]⟩) := by
  simp only [claim]
  repeat' split
  all_goals first
    | exact Or.inl rfl
    | exact Or.inr (Or.inl rfl)
    | exact Or.inr (Or.inr (Or.inl rfl))
    | exact Or.inr (Or.inr (Or.inr (Or.inl ⟨_, _, rfl⟩)))
    | exact Or.inr (Or.inr (Or.inr (Or.inr (Or.inl rfl))))
    | exact Or.inr (Or.inr (Or.inr (Or.inr (Or.inr (Or.inl ⟨_, ‹_›, rfl⟩)))))
    | exact Or.inr (Or.inr (Or.inr (Or.inr (Or.inr (Or.inr ⟨‹_›, rfl⟩)))))
    | (rename_i err heq
       unfold validateAmount at heq
       split at heq
       · injection heq with h
         subst h
         exact Or.inr (Or.inr (Or.inl rfl))
       · split at heq
         · injection heq with h
           subst h
           exact Or.inr (Or.inr (Or.inr (Or.inl ⟨_, _, rfl⟩)))
         · cases heq)

/-- C8: the claim endpoint is called at most once per run; a transport
failure of the submission is reported with exactly one fixed 5-second delay
and no reissue (the one call already made stays the only one), and no other
outcome performs any delay. -/
theorem single_submission_no_retry :
    (∀ (k : ℕ) (inp : ClaimInput), (claim k inp).claimRequests ≤ 1)
    ∧ (∀ (k : ℕ) (inp : ClaimInput),
        (claim k inp).outcome = .transportFailure →
        (claim k inp).claimRequests = 1
        ∧ (claim k inp).delaysSecs = [5] ∧ inp.claimResp = none)
    ∧ (∀ (k : ℕ) (inp : ClaimInput),
        (claim k inp).outcome ≠ .transportFailure →
        (claim k inp).delaysSecs = []) := by
  refine ⟨fun k inp => ?_, fun k inp h => ?_, fun k inp h => ?_⟩
  · rcases claim_run_cases k inp
      with h | h | h | ⟨r, a, h⟩ | h | ⟨b, hb, h⟩ | ⟨hn, h⟩ <;> simp [h]
  · rcases claim_run_cases k inp
      with h2 | h2 | h2 | ⟨r, a, h2⟩ | h2 | ⟨b, hb, h2⟩ | ⟨hn, h2⟩ <;>
      rw [h2] at h ⊢ <;> simp_all
    exact absurd h (classifyResponse_ne_transportFailure b)
  · rcases claim_run_cases k inp
      with h2 | h2 | h2 | ⟨r, a, h2⟩ | h2 | ⟨b, hb, h2⟩ | ⟨hn, h2⟩ <;>
      rw [h2] at h ⊢ <;> simp_all

/-- Witness for C8: a concrete run whose submission suffers a transport
failure: one request, one 5-second delay. -/
theorem single_submission_no_retry_witness :
    (claim 9 ⟨some (some (.finite 5 0)), some (.finite 3 0), none, "",
        none⟩).claimRequests = 1
    ∧ (claim 9 ⟨some (some (.finite 5 0)), some (.finite 3 0), none, "",
        none⟩).delaysSecs = [5] :=
  ⟨(single_submission_no_retry.2.1 9
      ⟨some (some (.finite 5 0)), some (.finite 3 0), none, "", none⟩
      (by decide)).1,
    (single_submission_no_retry.2.1 9
      ⟨some (some (.finite 5 0)), some (.finite 3 0), none, "", none⟩
      (by decide)).2.1⟩

/-- A negative finite amount converts to zero Grains: the product keeps its
sign and the saturating cast clamps every non-positive value to `0`. -/
theorem grainsOfAmount_neg (k : ℕ) (m e : ℤ) (hm : m < 0) :
    grainsOfAmount k (.finite m e) = 0 := by
  have h0 : ¬ m = 0 := by omega
  simp only [grainsOfAmount, f64MulPow10, if_neg h0]
  rcases hr : f64RoundPos (m.natAbs * 10 ^ k * 2 ^ e.toNat) (2 ^ (-e).toNat)
    with _ | ⟨m2, e2⟩
  · simp [hr, if_pos hm, f64ToU64]
  · simp only [hr, if_pos hm, f64ToU64]
    have : -(m2 : ℤ) ≤ 0 := by omega
    rw [if_pos this]

/-- The saturating cast always yields a valid `u64`. -/
theorem f64ToU64_le (x : F64) : f64ToU64 x ≤ 2 ^ 64 - 1 := by
  rcases x with ⟨m, e⟩ | _ | _ | _ <;> simp only [f64ToU64]
  · split
    · positivity
    · exact min_le_right _ _
  all_goals omega

/-- C9: the conversion is total over every double via the saturating cast:
NaN and any negative finite value (e.g. a preset of `-1.0`) give `0` Grains
— so such a preset ends in the zero-amount outcome instead of submitting a
negative claim — `+∞` gives `u64::MAX` Grains, which fails the sufficiency
check whenever the balance is below `u64::MAX`, and every conversion result
is a valid `u64` (no input makes the cast fail). -/
theorem conversion_total_saturating :
    (∀ k, grainsOfAmount k .nan = 0)
    ∧ (∀ (k : ℕ) (m e : ℤ), m < 0 → grainsOfAmount k (.finite m e) = 0)
    ∧ (∀ k, grainsOfAmount k .inf = 2 ^ 64 - 1)
    ∧ (∀ (k : ℕ) (d : F64), grainsOfAmount k d ≤ 2 ^ 64 - 1)
    ∧ (∀ (k : ℕ) (inp : ClaimInput) (pb : F64) (m e : ℤ),
        inp.balanceFetch = some (some pb) → grainsOfBalance k pb ≠ 0 →
        inp.presetAmount = some (.finite m e) → m < 0 →
        claim k inp = ⟨.zeroAmount, true, 0, []⟩)
    ∧ (∀ (k : ℕ) (inp : ClaimInput) (pb : F64),
        inp.balanceFetch = some (some pb) → grainsOfBalance k pb ≠ 0 →
        grainsOfBalance k pb < 2 ^ 64 - 1 →
        inp.presetAmount = some .inf →
        claim k inp = ⟨.insufficientBalance (2 ^ 64 - 1)
          (grainsOfBalance k pb), true, 0, []⟩) := by
  have hinf : ∀ k, grainsOfAmount k .inf = 2 ^ 64 - 1 := fun k => rfl
  refine ⟨fun k => rfl, grainsOfAmount_neg, hinf,
    fun k d => f64ToU64_le _, ?_, ?_⟩
  · intro k inp pb m e hbf hb0 hpre hm
    exact claim_amount_zero k inp pb (.finite m e) hbf hb0
      (by simp [resolvedAmount, hpre]) (grainsOfAmount_neg k m e hm)
  · intro k inp pb hbf hb0 hlt hpre
    have h := claim_insufficient k inp pb .inf hbf hb0
      (by simp [resolvedAmount, hpre]) (by rw [hinf]; exact hlt)
    rw [hinf] at h
    exact h

/-- Witness for C9: a preset of `-1.0` on a 5-unit balance ends in the
zero-amount outcome, and a preset of `+∞` ends in the insufficient-balance
outcome carrying `u64::MAX`. -/
theorem conversion_total_saturating_witness :
    grainsOfAmount 9 (.finite (-1) 0) = 0
    ∧ claim 9 ⟨some (some (.finite 5 0)), some (.finite (-1) 0), none, "y",
        some "SUCCESS"⟩ = ⟨.zeroAmount, true, 0, []⟩
    ∧ claim 9 ⟨some (some (.finite 5 0)), some .inf, none, "y",
        some "SUCCESS"⟩
      = ⟨.insufficientBalance (2 ^ 64 - 1) 5000000000, true, 0, []⟩ :=
  ⟨conversion_total_saturating.2.1 9 (-1) 0 (by decide),
    conversion_total_saturating.2.2.2.2.1 9
      ⟨some (some (.finite 5 0)), some (.finite (-1) 0), none, "y",
        some "SUCCESS"⟩ (.finite 5 0) (-1) 0 rfl (by decide) rfl (by decide),
    by
      have h := conversion_total_saturating.2.2.2.2.2 9
        ⟨some (some (.finite 5 0)), some .inf, none, "y", some "SUCCESS"⟩
        (.finite 5 0) rfl (by decide) (by decide) rfl
      have hb : grainsOfBalance 9 (.finite 5 0) = 5000000000 := by decide
      rw [hb] at h
      exact h⟩

/-- C10: an all-whitespace confirmation line trims to the empty string and
therefore counts as affirmative: a run that reaches the gate with such a
line proceeds to submission. -/
theorem whitespace_confirm_affirms :
    (∀ line : String, rustTrim line.data = [] →
        confirmCancelled line = false)
    ∧ (∀ (k : ℕ) (inp : ClaimInput) (pb a : F64),
        inp.balanceFetch = some (some pb) → grainsOfBalance k pb ≠ 0 →
        resolvedAmount inp = some a → grainsOfAmount k a ≠ 0 →
        grainsOfAmount k a ≤ grainsOfBalance k pb →
        rustTrim inp.confirmLine.data = [] →
        (claim k inp).claimRequests = 1) := by
  have htrim : ∀ line : String, rustTrim line.data = [] →
      confirmCancelled line = false := by
    intro line h
    simp [confirmCancelled, h, rustToLower]
  refine ⟨htrim, ?_⟩
  intro k inp pb a hbf hb0 hra ha0 hle ht
  have hval : validateAmount (grainsOfAmount k a) (grainsOfBalance k pb)
      = none := by
    have hngt : ¬ grainsOfAmount k a > grainsOfBalance k pb := by omega
    simp [validateAmount, ha0, hngt]
  rw [claim_eval_gate k inp pb a hbf hb0 hra hval,
    if_neg (by simp [htrim inp.confirmLine ht])]
  cases inp.claimResp <;> rfl

/-- Witness for C10: a confirmation line of three spaces on a valid run
proceeds to submission. -/
theorem whitespace_confirm_affirms_witness :
    rustTrim "   ".data = []
    ∧ (claim 9 ⟨some (some (.finite 5 0)), some (.finite 3 0), none, "   ",
        some "SUCCESS"⟩).claimRequests = 1 :=
  ⟨by decide,
    whitespace_confirm_affirms.2 9
      ⟨some (some (.finite 5 0)), some (.finite 3 0), none, "   ",
        some "SUCCESS"⟩ (.finite 5 0) (.finite 3 0) rfl (by decide) rfl
      (by decide) (by decide) (by decide)⟩
